import Mathlib

/-!
Verification of the asynchronous job-execution subsystem of the
crewai-agency repository: the in-memory `JobStore`
(src/app/core/job_store.py), the background dispatcher `_run_crew_job`
and periodic reaper `_cleanup_jobs_periodically` (src/app/main.py), and
the tenacity retry policy around `MarketingCrew._execute_crew`
(src/app/crews/marketing_crew.py).

The Python code is shallowly embedded: the store's dict becomes an
association list keyed by job id, timestamps become integers supplied as
explicit `now` arguments, exceptions become an `Except` value, and each
mutating method returns the new store together with its Python return
value.
-/

namespace Agency

/-- `JobStatus` (src/app/core/job_store.py): QUEUED, RUNNING, DONE, FAILED. -/
inductive JobStatus where
  | queued
  | running
  | done
  | failed
deriving DecidableEq, Repr

/-- A structured `{code, message}` error payload, the shape stored in
`Job.error` (`dict[str, str]` in the source, always built with exactly
these two keys). -/
structure ErrPayload where
  code : String
  message : String
deriving DecidableEq, Repr

/-- The opaque structured result a crew run returns (`dict[str, Any]` in
the source); modelled as a string-keyed association list, which is all
the job subsystem ever does with it (store and hand back). -/
abbrev ResultVal := List (String × String)

/-- The `Job` dataclass (src/app/core/job_store.py). `created_at` and
`updated_at` are `time.time()` floats in the source; modelled as
integers. -/
structure Job where
  job_id : String
  trace_id : String
  crew : String
  status : JobStatus := .queued
  result : Option ResultVal := none
  error : Option ErrPayload := none
  created_at : Int
  updated_at : Int
deriving DecidableEq, Repr

/-- The `JobStore`'s state: `_jobs` (a dict from job id to `Job`,
modelled as an association list in insertion order) and `_ttl_seconds`.
The `threading.RLock` only serializes the methods; each method below is
one such atomic critical section. -/
structure JobStore where
  jobs : List (String × Job)
  ttl_seconds : Int
deriving DecidableEq, Repr

/-- Dict lookup `d.get(k)`: the entry for the key (first match; a Python
dict has unique keys). -/
def findKey {α : Type} : List (String × α) → String → Option α
  | [], _ => none
  | (k, v) :: rest, id => if k = id then some v else findKey rest id

/-- `JobStore.get_job`: `self._jobs.get(job_id)`. -/
def JobStore.get_job (s : JobStore) (job_id : String) : Option Job :=
  findKey s.jobs job_id

/-- `JobStore.create_job`: builds a fresh QUEUED job and inserts it under
a fresh uuid (the uuid is passed in as `job_id` here); returns the job.
Dict insertion appends at the end. -/
def JobStore.create_job (s : JobStore) (job_id trace_id crew : String) (now : Int) :
    JobStore × Job :=
  let job : Job :=
    { job_id := job_id, trace_id := trace_id, crew := crew, status := .queued,
      result := none, error := none, created_at := now, updated_at := now }
  ({ s with jobs := s.jobs ++ [(job_id, job)] }, job)

/-- The field mutations of `JobStore.update_job`: each of `status`,
`result`, `error` is assigned only when the argument is not `None`, and
`updated_at` is set to `time.time()` (the `now` argument). -/
def applyUpdate (j : Job) (status : Option JobStatus) (result : Option ResultVal)
    (error : Option ErrPayload) (now : Int) : Job :=
  { j with
    status := match status with | some v => v | none => j.status,
    result := match result with | some v => some v | none => j.result,
    error := match error with | some v => some v | none => j.error,
    updated_at := now }

/-- Replace the dict entry under `id` by the updated job (in Python the
stored `Job` object is mutated in place, so the entry under `id` now
holds the new value and every other entry is untouched). -/
def updEntry : List (String × Job) → String → Job → List (String × Job)
  | [], _, _ => []
  | (k, v) :: rest, id, j' =>
    if k = id then (id, j') :: updEntry rest id j'
    else (k, v) :: updEntry rest id j'

/-- `JobStore.update_job`: returns `None` and changes nothing when the id
is unknown; otherwise assigns exactly the provided fields, bumps
`updated_at`, and returns the updated job. -/
def JobStore.update_job (s : JobStore) (job_id : String) (status : Option JobStatus)
    (result : Option ResultVal) (error : Option ErrPayload) (now : Int) :
    JobStore × Option Job :=
  match findKey s.jobs job_id with
  | none => (s, none)
  | some j =>
    let j' := applyUpdate j status result error now
    ({ s with jobs := updEntry s.jobs job_id j' }, some j')

/-- `JobStore.cleanup_old_jobs`: computes `cutoff = now - ttl`, deletes
every job with `created_at < cutoff`, and returns how many were
deleted. -/
def JobStore.cleanup_old_jobs (s : JobStore) (now : Int) : JobStore × Nat :=
  let cutoff := now - s.ttl_seconds
  let old := s.jobs.filter fun p => decide (p.2.created_at < cutoff)
  ({ s with jobs := s.jobs.filter fun p => ! decide (p.2.created_at < cutoff) },
   old.length)

/-- `JobStore.get_stats`: total count and per-status counts. -/
def JobStore.get_stats (s : JobStore) : Nat × (JobStatus → Nat) :=
  (s.jobs.length,
   fun st => s.jobs.countP fun p => decide (p.2.status = st))

/-! ## Python exceptions and the tenacity retry policy

`MarketingCrew._execute_crew` is decorated with
`@retry(stop=stop_after_attempt(2), wait=wait_exponential(...),
retry=retry_if_exception_type((TimeoutError, ConnectionError)))`.
Tenacity semantics with these arguments (`reraise` left at its default
`False`): each attempt calls the function; a raised exception that is
not a `TimeoutError`/`ConnectionError` is re-raised as-is at once; a
transient one triggers a retry until the stop condition (2 attempts)
holds, at which point tenacity raises a `RetryError` wrapping the last
attempt, not the original exception. -/

/-- Python exception values as the job subsystem distinguishes them:
the two transient kinds tenacity retries, other exception classes
(carrying their class name and message), and tenacity's `RetryError`
wrapper around a failed last attempt. -/
inductive PyExc where
  | timeoutError (msg : String)
  | connectionError (msg : String)
  | valueError (msg : String)
  | otherError (cls msg : String)
  | retryError (last : PyExc)
deriving DecidableEq, Repr

/-- `retry_if_exception_type((TimeoutError, ConnectionError))`. -/
def isTransient : PyExc → Bool
  | .timeoutError _ => true
  | .connectionError _ => true
  | _ => false

/-- The retry-decorated `MarketingCrew._execute_crew`. `attempts n` is
what the wrapped work unit (`crew.kickoff`) does on its `n`-th
invocation. Returns the overall outcome together with how many times the
work unit was invoked. -/
def execute_crew (attempts : Nat → Except PyExc String) : Except PyExc String × Nat :=
  match attempts 0 with
  | .ok r => (.ok r, 1)
  | .error e =>
    if isTransient e then
      match attempts 1 with
      | .ok r => (.ok r, 2)
      | .error e₂ =>
        if isTransient e₂ then
          (.error (.retryError e₂), 2)
        else
          (.error e₂, 2)
    else
      (.error e, 1)

/-! ## The dispatcher `_run_crew_job` (src/app/main.py) -/

/-- The sanitized error payload `_run_crew_job` stores on any failure. -/
def executionError : ErrPayload :=
  { code := "EXECUTION_ERROR", message := "An error occurred during crew execution" }

/-- `_run_crew_job`: marks the job RUNNING (the return value of that
`update_job` call is discarded in the source), then invokes the work
unit unconditionally — `exec` is its outcome — and writes DONE plus the
result, or FAILED plus the fixed sanitized error, back into the store
(those return values are discarded too, and the `except Exception`
branch means no exception escapes). Returns the final store and whether
the work unit was invoked. -/
def run_crew_job (s : JobStore) (job_id : String) (exec : Except PyExc ResultVal)
    (now₁ now₂ : Int) : JobStore × Bool :=
  let s₁ := (s.update_job job_id (some .running) none none now₁).1
  match exec with
  | .ok r => ((s₁.update_job job_id (some .done) (some r) none now₂).1, true)
  | .error _ =>
      ((s₁.update_job job_id (some .failed) none (some executionError) now₂).1, true)

/-! ## The periodic reaper `_cleanup_jobs_periodically` (src/app/main.py)

The loop body is `while True: time.sleep(300); removed =
job_store.cleanup_old_jobs(); ...` with no exception handling: an
exception raised by a sweep propagates out of the loop and ends the
thread. We model a (finite prefix of the) schedule of sweep outcomes and
record how many sweeps the loop actually performed and which exception,
if any, escaped. -/

/-- Run the reaper loop against a schedule of sweep outcomes: `.ok n`
means that sweep returned normally (removing `n` jobs), `.error e` that
it raised `e`. Returns (number of sweeps performed, escaped exception if
the loop terminated). -/
def cleanup_loop : List (Except String Nat) → Nat × Option String
  | [] => (0, none)
  | .ok _ :: rest =>
    let r := cleanup_loop rest
    (r.1 + 1, r.2)
  | .error e :: _ => (1, some e)

/-! ## Python object aliasing: the store hands out the stored `Job`

`get_job` executes `return self._jobs.get(job_id)` and `create_job`
returns the very object it inserted: the caller receives a reference to
the mutable `Job` object the store holds, not a copy. To settle the
aliasing claim we refine the store with an explicit heap: `cells` is the
heap of `Job` objects (an address is an index), and the dict maps each
job id to the address of its object. -/

/-- The store with Python object identity made explicit. -/
structure JobStoreRef where
  cells : List Job
  jobs : List (String × Nat)
deriving DecidableEq, Repr

/-- `create_job` on the refined store: allocates the new `Job` object on
the heap and makes the dict entry point at it; the returned value is the
address of that same object (the source returns `job` itself). -/
def JobStoreRef.create_job (s : JobStoreRef) (job_id trace_id crew : String) (now : Int) :
    JobStoreRef × Nat :=
  let addr := s.cells.length
  let job : Job :=
    { job_id := job_id, trace_id := trace_id, crew := crew, status := .queued,
      result := none, error := none, created_at := now, updated_at := now }
  ({ cells := s.cells ++ [job], jobs := s.jobs ++ [(job_id, addr)] }, addr)

/-- `get_job` on the refined store: `self._jobs.get(job_id)` hands back
the stored object, i.e. its address. -/
def JobStoreRef.get_job (s : JobStoreRef) (job_id : String) : Option Nat :=
  findKey s.jobs job_id

/-- Read a heap object. -/
def JobStoreRef.deref (s : JobStoreRef) (a : Nat) : Option Job :=
  s.cells[a]?

/-- A caller mutating the `Job` object at address `a` (e.g.
`job.status = ...` on the value `get_job` returned): the heap cell is
overwritten in place; the store's dict is untouched. -/
def JobStoreRef.mutateAt (s : JobStoreRef) (a : Nat) (j : Job) : JobStoreRef :=
  { s with cells := s.cells.set a j }

/-- The record the store holds for `job_id`: the object its dict entry
points at. -/
def JobStoreRef.record (s : JobStoreRef) (job_id : String) : Option Job :=
  (findKey s.jobs job_id).bind s.deref

/-! ## The system's atomic steps on the store

Each constructor is one store call the running system actually issues,
with the condition under which the system issues it:

* `create` — the `/crews/{name}/run` handler creates each job under a
  fresh uuid (`str(uuid.uuid4())`), so the id is not yet in the store.
* `markRunning` — `_run_crew_job` marks RUNNING a job that was just
  created QUEUED; by the time the background thread runs, the reaper may
  already have removed it (then the call is a no-op). One thread is
  spawned per created job, so the job cannot be in any other status.
* `finishDone` / `finishFailed` — `_run_crew_job` writes the terminal
  update for the job it marked RUNNING (or the reaper removed it in
  between). Exactly the fields the source passes are passed: DONE comes
  with the crew result, FAILED with the fixed sanitized error.
* `sweep` — the reaper calls `cleanup_old_jobs` at any time.
-/
inductive Step : JobStore → JobStore → Prop where
  | create (s : JobStore) (job_id trace_id crew : String) (now : Int)
      (h : s.get_job job_id = none) :
      Step s (s.create_job job_id trace_id crew now).1
  | markRunning (s : JobStore) (job_id : String) (now : Int)
      (h : s.get_job job_id = none ∨
        ∃ j, s.get_job job_id = some j ∧ j.status = .queued) :
      Step s (s.update_job job_id (some .running) none none now).1
  | finishDone (s : JobStore) (job_id : String) (r : ResultVal) (now : Int)
      (h : s.get_job job_id = none ∨
        ∃ j, s.get_job job_id = some j ∧ j.status = .running) :
      Step s (s.update_job job_id (some .done) (some r) none now).1
  | finishFailed (s : JobStore) (job_id : String) (now : Int)
      (h : s.get_job job_id = none ∨
        ∃ j, s.get_job job_id = some j ∧ j.status = .running) :
      Step s (s.update_job job_id (some .failed) none (some executionError) now).1
  | sweep (s : JobStore) (now : Int) :
      Step s (s.cleanup_old_jobs now).1

/-- The store states reachable by the running system: from the empty
store (`JobStore(ttl_seconds=3600)` starts with `_jobs = {}`) along
`Step`s. -/
inductive Reach : JobStore → Prop where
  | init (ttl : Int) : Reach { jobs := [], ttl_seconds := ttl }
  | step {s s' : JobStore} (h : Reach s) (hs : Step s s') : Reach s'

/-- Per-record invariant: what each status implies about `result` and
`error`. -/
def InvJob (j : Job) : Prop :=
  (j.status = .queued → j.result = none ∧ j.error = none)
  ∧ (j.status = .running → j.result = none ∧ j.error = none)
  ∧ (j.status = .done → (∃ r, j.result = some r) ∧ j.error = none)
  ∧ (j.status = .failed → j.result = none ∧ ∃ e, j.error = some e)

/-- Store-wide invariant: every stored record satisfies `InvJob`. -/
def StoreInv (s : JobStore) : Prop := ∀ p ∈ s.jobs, InvJob p.2

/-- Position of a status along `Queued → Running → {Done, Failed}`. -/
def statusRank : JobStatus → Nat
  | .queued => 0
  | .running => 1
  | .done => 2
  | .failed => 2

/-! ## Concrete fixtures for witnesses and counterexamples -/

/-- A job record with fixed identifiers, for concrete scenarios. -/
def mkJob (st : JobStatus) (res : Option ResultVal) (err : Option ErrPayload)
    (cAt uAt : Int) : Job :=
  { job_id := "a", trace_id := "t", crew := "marketing", status := st,
    result := res, error := err, created_at := cAt, updated_at := uAt }

/-- A freshly initialized store, `JobStore(ttl_seconds=3600)`. -/
def emptyS : JobStore := { jobs := [], ttl_seconds := 3600 }

/-- A store holding one QUEUED job. -/
def sQueued : JobStore := { jobs := [("a", mkJob .queued none none 0 0)], ttl_seconds := 3600 }

/-- A store holding one DONE job with a result. -/
def sDone : JobStore :=
  { jobs := [("a", mkJob .done (some [("output", "ok")]) none 0 1)], ttl_seconds := 3600 }

/-- An empty refined (heap) store. -/
def refS0 : JobStoreRef := { cells := [], jobs := [] }

/-- The refined store after one `create_job`. -/
def refS1 : JobStoreRef := (refS0.create_job "a" "t" "marketing" 0).1

/-! ## Lookup lemmas -/

@[simp]
theorem findKey_nil {α : Type} (id : String) :
    findKey ([] : List (String × α)) id = none := rfl

@[simp]
theorem findKey_cons {α : Type} (k : String) (v : α) (rest : List (String × α))
    (id : String) :
    findKey ((k, v) :: rest) id = if k = id then some v else findKey rest id := rfl

theorem findKey_mem {α : Type} {l : List (String × α)} {id : String} {v : α}
    (h : findKey l id = some v) : (id, v) ∈ l := by
  induction l with
  | nil => simp at h
  | cons p rest ih =>
    obtain ⟨k, w⟩ := p
    rw [findKey_cons] at h
    by_cases hk : k = id
    · subst hk
      simp at h
      subst h
      exact List.mem_cons_self _ _
    · rw [if_neg hk] at h
      exact List.mem_cons_of_mem _ (ih h)

theorem findKey_eq_none_of_not_mem {α : Type} {l : List (String × α)} {id : String}
    (h : id ∉ l.map Prod.fst) : findKey l id = none := by
  induction l with
  | nil => rfl
  | cons p rest ih =>
    obtain ⟨k, w⟩ := p
    simp only [List.map_cons, List.mem_cons] at h
    push_neg at h
    rw [findKey_cons, if_neg (fun hk => h.1 hk.symm)]
    exact ih h.2

theorem findKey_append_fresh {α : Type} {l : List (String × α)} {id : String} (v : α)
    (h : findKey l id = none) : findKey (l ++ [(id, v)]) id = some v := by
  induction l with
  | nil => simp
  | cons p rest ih =>
    obtain ⟨k, w⟩ := p
    rw [findKey_cons] at h
    by_cases hk : k = id
    · rw [if_pos hk] at h; exact absurd h (by simp)
    · rw [if_neg hk] at h
      simpa [findKey_cons, if_neg hk] using ih h

theorem findKey_append_other {α : Type} (l : List (String × α)) {k id : String} (v : α)
    (h : k ≠ id) : findKey (l ++ [(k, v)]) id = findKey l id := by
  induction l with
  | nil => simp [if_neg h]
  | cons p rest ih =>
    obtain ⟨k', w⟩ := p
    by_cases hk : k' = id <;> simp [findKey_cons, hk, ih]

theorem updEntry_cons (k : String) (v : Job) (rest : List (String × Job))
    (id : String) (j' : Job) :
    updEntry ((k, v) :: rest) id j' =
      if k = id then (id, j') :: updEntry rest id j'
      else (k, v) :: updEntry rest id j' := rfl

theorem findKey_updEntry_self (l : List (String × Job)) (id : String) (j' : Job) :
    findKey (updEntry l id j') id = (findKey l id).map fun _ => j' := by
  induction l with
  | nil => rfl
  | cons p rest ih =>
    obtain ⟨k, w⟩ := p
    rw [updEntry_cons]
    by_cases hk : k = id
    · rw [if_pos hk, findKey_cons, findKey_cons, if_pos rfl, if_pos hk]
      rfl
    · rw [if_neg hk, findKey_cons, findKey_cons, if_neg hk, if_neg hk]
      exact ih

theorem findKey_updEntry_other (l : List (String × Job)) {id id' : String} (j' : Job)
    (h : id' ≠ id) : findKey (updEntry l id j') id' = findKey l id' := by
  induction l with
  | nil => rfl
  | cons p rest ih =>
    obtain ⟨k, w⟩ := p
    rw [updEntry_cons]
    by_cases hk : k = id
    · rw [if_pos hk, findKey_cons, findKey_cons,
        if_neg (Ne.symm h), if_neg (hk ▸ Ne.symm h)]
      exact ih
    · rw [if_neg hk, findKey_cons, findKey_cons]
      by_cases hk' : k = id'
      · rw [if_pos hk', if_pos hk']
      · rw [if_neg hk', if_neg hk']
        exact ih

theorem findKey_filter_none {α : Type} {l : List (String × α)} {id : String}
    (P : String × α → Bool) (h : findKey l id = none) :
    findKey (l.filter P) id = none := by
  induction l with
  | nil => rfl
  | cons p rest ih =>
    obtain ⟨k, w⟩ := p
    rw [findKey_cons] at h
    by_cases hk : k = id
    · rw [if_pos hk] at h; exact absurd h (by simp)
    · rw [if_neg hk] at h
      by_cases hp : P (k, w) <;> simp [List.filter_cons, hp, findKey_cons, hk, ih h]

theorem findKey_filter_some {α : Type} {l : List (String × α)} {id : String} {v : α}
    (P : String × α → Bool) (hnd : (l.map Prod.fst).Nodup)
    (h : findKey l id = some v) :
    findKey (l.filter P) id = if P (id, v) = true then some v else none := by
  induction l with
  | nil => simp at h
  | cons p rest ih =>
    obtain ⟨k, w⟩ := p
    simp only [List.map_cons, List.nodup_cons] at hnd
    rw [findKey_cons] at h
    by_cases hk : k = id
    · subst hk
      rw [if_pos rfl] at h
      injection h with hwv
      subst hwv
      have hrest : findKey rest k = none :=
        findKey_eq_none_of_not_mem hnd.1
      by_cases hp : P (k, w) = true <;>
        simp [List.filter_cons, hp, findKey_cons, findKey_filter_none P hrest]
    · rw [if_neg hk] at h
      by_cases hp : P (k, w) = true <;>
        simp [List.filter_cons, hp, findKey_cons, hk, ih hnd.2 h]

/-! ## The effect of each store operation on lookups -/

theorem update_job_not_found (s : JobStore) (id : String) (st : Option JobStatus)
    (r : Option ResultVal) (e : Option ErrPayload) (now : Int)
    (h : s.get_job id = none) : s.update_job id st r e now = (s, none) := by
  have hf : findKey s.jobs id = none := h
  simp [JobStore.update_job, hf]

theorem update_job_found (s : JobStore) (id : String) (st : Option JobStatus)
    (r : Option ResultVal) (e : Option ErrPayload) (now : Int) (j : Job)
    (h : s.get_job id = some j) :
    (s.update_job id st r e now).2 = some (applyUpdate j st r e now)
    ∧ (s.update_job id st r e now).1.get_job id = some (applyUpdate j st r e now) := by
  have hf : findKey s.jobs id = some j := h
  constructor
  · simp [JobStore.update_job, hf]
  · simp only [JobStore.update_job, hf, JobStore.get_job]
    rw [findKey_updEntry_self, hf]
    rfl

theorem update_job_frame (s : JobStore) {id : String} (id' : String)
    (st : Option JobStatus) (r : Option ResultVal) (e : Option ErrPayload) (now : Int)
    (h : id' ≠ id) :
    (s.update_job id st r e now).1.get_job id' = s.get_job id' := by
  simp only [JobStore.update_job]
  cases hf : findKey s.jobs id
  · rfl
  · simp only [JobStore.get_job]
    exact findKey_updEntry_other _ _ h

theorem create_job_get_self (s : JobStore) (job_id trace_id crew : String) (now : Int)
    (h : s.get_job job_id = none) :
    (s.create_job job_id trace_id crew now).1.get_job job_id =
      some (s.create_job job_id trace_id crew now).2 := by
  simp only [JobStore.create_job, JobStore.get_job] at h ⊢
  exact findKey_append_fresh _ h

theorem create_job_frame (s : JobStore) {job_id : String} (id' : String)
    (trace_id crew : String) (now : Int) (h : job_id ≠ id') :
    (s.create_job job_id trace_id crew now).1.get_job id' = s.get_job id' := by
  simp only [JobStore.create_job, JobStore.get_job]
  exact findKey_append_other _ _ h

/-! ## The reachability invariant -/

theorem mem_updEntry {l : List (String × Job)} {id : String} {j' : Job}
    {p : String × Job} (hp : p ∈ updEntry l id j') : p = (id, j') ∨ p ∈ l := by
  induction l with
  | nil => simp [updEntry] at hp
  | cons q rest ih =>
    obtain ⟨k, w⟩ := q
    rw [updEntry_cons] at hp
    by_cases hk : k = id
    · rw [if_pos hk] at hp
      rcases List.mem_cons.1 hp with rfl | hmem
      · exact Or.inl rfl
      · rcases ih hmem with h | h
        · exact Or.inl h
        · exact Or.inr (List.mem_cons_of_mem _ h)
    · rw [if_neg hk] at hp
      rcases List.mem_cons.1 hp with rfl | hmem
      · exact Or.inr (List.mem_cons_self _ _)
      · rcases ih hmem with h | h
        · exact Or.inl h
        · exact Or.inr (List.mem_cons_of_mem _ h)

theorem storeInv_update (s : JobStore) (id : String) (st : Option JobStatus)
    (r : Option ResultVal) (e : Option ErrPayload) (now : Int)
    (hInv : StoreInv s)
    (hok : ∀ j, s.get_job id = some j → InvJob (applyUpdate j st r e now)) :
    StoreInv (s.update_job id st r e now).1 := by
  cases hf : findKey s.jobs id with
  | none =>
    rw [update_job_not_found s id st r e now hf]
    exact hInv
  | some j =>
    have hjobs : (s.update_job id st r e now).1.jobs =
        updEntry s.jobs id (applyUpdate j st r e now) := by
      simp [JobStore.update_job, hf]
    intro p hp
    rw [hjobs] at hp
    rcases mem_updEntry hp with rfl | hmem
    · exact hok j hf
    · exact hInv p hmem

theorem step_preserves_inv {s s' : JobStore} (hstep : Step s s') (hInv : StoreInv s) :
    StoreInv s' := by
  cases hstep with
  | create jid tid crew now h =>
    intro p hp
    simp only [JobStore.create_job] at hp
    rcases List.mem_append.1 hp with hmem | hnew
    · exact hInv p hmem
    · rcases List.mem_singleton.1 hnew with rfl
      simp [InvJob]
  | markRunning jid now h =>
    apply storeInv_update _ _ _ _ _ _ hInv
    intro j hj
    rcases h with hnone | ⟨j₀, hj₀, hq⟩
    · rw [hj] at hnone; exact absurd hnone (by simp)
    · rw [hj] at hj₀
      injection hj₀ with hjj
      subst hjj
      obtain ⟨hres, herr⟩ := (hInv _ (findKey_mem hj)).1 hq
      have hres2 : j.result = none := hres
      have herr2 : j.error = none := herr
      simp [InvJob, applyUpdate, hres2, herr2]
  | finishDone jid r now h =>
    apply storeInv_update _ _ _ _ _ _ hInv
    intro j hj
    rcases h with hnone | ⟨j₀, hj₀, hq⟩
    · rw [hj] at hnone; exact absurd hnone (by simp)
    · rw [hj] at hj₀
      injection hj₀ with hjj
      subst hjj
      obtain ⟨hres, herr⟩ := (hInv _ (findKey_mem hj)).2.1 hq
      have hres2 : j.result = none := hres
      have herr2 : j.error = none := herr
      simp [InvJob, applyUpdate, hres2, herr2]
  | finishFailed jid now h =>
    apply storeInv_update _ _ _ _ _ _ hInv
    intro j hj
    rcases h with hnone | ⟨j₀, hj₀, hq⟩
    · rw [hj] at hnone; exact absurd hnone (by simp)
    · rw [hj] at hj₀
      injection hj₀ with hjj
      subst hjj
      obtain ⟨hres, herr⟩ := (hInv _ (findKey_mem hj)).2.1 hq
      have hres2 : j.result = none := hres
      have herr2 : j.error = none := herr
      simp [InvJob, applyUpdate, hres2, herr2]
  | sweep now =>
    intro p hp
    simp only [JobStore.cleanup_old_jobs] at hp
    exact hInv p (List.mem_of_mem_filter hp)

theorem reach_inv {s : JobStore} (h : Reach s) : StoreInv s := by
  induction h with
  | init ttl => intro p hp; simp at hp
  | step _ hs ih => exact step_preserves_inv hs ih

/-! ## Claim C1: status monotonicity -/

/-- C1, counterexample: the claim says an `update` on a `Done`/`Failed`
job is rejected or a no-op and the status never reverts. On a store
holding a DONE job, `update_job` with `status=QUEUED` is accepted (it
returns the job, not None) and the stored status reverts to QUEUED:
`update_job` enforces no transition discipline. -/
theorem C1_counterexample :
    (sDone.update_job "a" (some .queued) none none 2).2 =
      some (mkJob .queued (some [("output", "ok")]) none 0 2)
    ∧ (sDone.update_job "a" (some .queued) none none 2).1.get_job "a" =
      some (mkJob .queued (some [("output", "ok")]) none 0 2)
    ∧ (mkJob .queued (some [("output", "ok")]) none 0 2).status ≠ JobStatus.done := by
  decide

/-- C1 (amended): the store's `update_job` itself applies whatever status
is provided, so a direct backward update is neither rejected nor a
no-op; forward-only transitions hold for the system because of the
Dispatcher's call discipline: along every atomic step the running system
actually performs (`Step`), the status of a stored job never regresses
along `Queued → Running → {Done, Failed}`, and a terminal record is
never modified (only possibly deleted by the sweeper). -/
theorem C1_status_forward (s s' : JobStore) (hnd : (s.jobs.map Prod.fst).Nodup)
    (hstep : Step s s') (id : String) (j j' : Job)
    (hj : s.get_job id = some j) (hj' : s'.get_job id = some j') :
    statusRank j.status ≤ statusRank j'.status
    ∧ ((j.status = .done ∨ j.status = .failed) → j' = j) := by
  cases hstep with
  | create jid tid crew now h =>
    by_cases hid : jid = id
    · subst hid; rw [hj] at h; exact absurd h (by simp)
    · rw [create_job_frame s id tid crew now hid, hj] at hj'
      injection hj' with hh
      subst hh
      exact ⟨le_refl _, fun _ => rfl⟩
  | markRunning jid now h =>
    by_cases hid : id = jid
    · subst hid
      rcases h with hnone | ⟨j₀, hj₀, hq⟩
      · rw [hj] at hnone; exact absurd hnone (by simp)
      · rw [hj] at hj₀
        injection hj₀ with hjj
        subst hjj
        rw [(update_job_found s id (some .running) none none now j hj).2] at hj'
        injection hj' with hjj'
        subst hjj'
        constructor
        · rw [hq]; exact Nat.zero_le _
        · intro hterm
          rw [hq] at hterm
          rcases hterm with h1 | h1 <;> exact absurd h1 (by simp)
    · rw [update_job_frame s id (some .running) none none now hid, hj] at hj'
      injection hj' with hh
      subst hh
      exact ⟨le_refl _, fun _ => rfl⟩
  | finishDone jid r now h =>
    by_cases hid : id = jid
    · subst hid
      rcases h with hnone | ⟨j₀, hj₀, hq⟩
      · rw [hj] at hnone; exact absurd hnone (by simp)
      · rw [hj] at hj₀
        injection hj₀ with hjj
        subst hjj
        rw [(update_job_found s id (some .done) (some r) none now j hj).2] at hj'
        injection hj' with hjj'
        subst hjj'
        constructor
        · rw [hq]
          show statusRank .running ≤ statusRank .done
          decide
        · intro hterm
          rw [hq] at hterm
          rcases hterm with h1 | h1 <;> exact absurd h1 (by simp)
    · rw [update_job_frame s id (some .done) (some r) none now hid, hj] at hj'
      injection hj' with hh
      subst hh
      exact ⟨le_refl _, fun _ => rfl⟩
  | finishFailed jid now h =>
    by_cases hid : id = jid
    · subst hid
      rcases h with hnone | ⟨j₀, hj₀, hq⟩
      · rw [hj] at hnone; exact absurd hnone (by simp)
      · rw [hj] at hj₀
        injection hj₀ with hjj
        subst hjj
        rw [(update_job_found s id (some .failed) none (some executionError) now j
          hj).2] at hj'
        injection hj' with hjj'
        subst hjj'
        constructor
        · rw [hq]
          show statusRank .running ≤ statusRank .failed
          decide
        · intro hterm
          rw [hq] at hterm
          rcases hterm with h1 | h1 <;> exact absurd h1 (by simp)
    · rw [update_job_frame s id (some .failed) none (some executionError) now hid,
        hj] at hj'
      injection hj' with hh
      subst hh
      exact ⟨le_refl _, fun _ => rfl⟩
  | sweep now =>
    have hj'' : findKey (s.jobs.filter fun p =>
        ! decide (p.2.created_at < now - s.ttl_seconds)) id = some j' := hj'
    rw [findKey_filter_some _ hnd hj] at hj''
    by_cases hp : (! decide (j.created_at < now - s.ttl_seconds)) = true
    · rw [if_pos hp] at hj''
      injection hj'' with hh
      subst hh
      exact ⟨le_refl _, fun _ => rfl⟩
    · rw [if_neg hp] at hj''
      exact absurd hj'' (by simp)

/-- C1, witness: a concrete `markRunning` step on a store holding one
QUEUED job. -/
theorem C1_witness :
    statusRank (mkJob .queued none none 0 0).status ≤
      statusRank (mkJob .running none none 0 5).status
    ∧ (((mkJob .queued none none 0 0).status = .done ∨
        (mkJob .queued none none 0 0).status = .failed) →
      mkJob .running none none 0 5 = mkJob .queued none none 0 0) :=
  C1_status_forward sQueued
    (sQueued.update_job "a" (some .running) none none 5).1 (by decide)
    (Step.markRunning sQueued "a" 5
      (Or.inr ⟨mkJob .queued none none 0 0, by decide, by decide⟩))
    "a" (mkJob .queued none none 0 0) (mkJob .running none none 0 5)
    (by decide) (by decide)

/-! ## Claim C2: the store hands out references, not snapshots -/

theorem getElem?_set_self {α : Type} (l : List α) (a : Nat) (x : α)
    (h : a < l.length) : (l.set a x)[a]? = some x := by
  induction l generalizing a with
  | nil => simp at h
  | cons y rest ih =>
    cases a with
    | zero => simp
    | succ a' =>
      simp only [List.set_cons_succ, List.getElem?_cons_succ]
      exact ih a' (Nat.lt_of_succ_lt_succ h)

/-- C2, counterexample: the claim says mutating the value returned by
`get` does not change the record the Store holds. After `create_job`,
`get_job` hands back the stored `Job` object itself (address 0 in the
refined heap model of `return self._jobs.get(job_id)`); assigning
`status = DONE` through that reference changes the record the store
holds from QUEUED to DONE. -/
theorem C2_counterexample :
    refS1.get_job "a" = some 0
    ∧ refS1.record "a" = some (mkJob .queued none none 0 0)
    ∧ (refS1.mutateAt 0 (mkJob .done none none 0 0)).record "a" =
        some (mkJob .done none none 0 0)
    ∧ mkJob .done none none 0 0 ≠ mkJob .queued none none 0 0 := by
  decide

/-- C2 (amended): `get_job` returns a reference to the very mutable
`Job` object the Store holds (the source returns the stored object, not
a copy), so mutating the returned value does change the record the
Store holds: writing any job value through the returned reference makes
the store's record for that id equal to the written value. -/
theorem C2_get_job_aliases (s : JobStoreRef) (id : String) (a : Nat)
    (hget : s.get_job id = some a) (ha : a < s.cells.length) (j' : Job) :
    (s.mutateAt a j').record id = some j' := by
  have hfind : findKey s.jobs id = some a := hget
  simp only [JobStoreRef.record, JobStoreRef.mutateAt, JobStoreRef.deref, hfind,
    Option.bind_some]
  exact getElem?_set_self s.cells a j' ha

/-- C2, witness: the aliasing theorem applied to the one-job refined
store at address 0. -/
theorem C2_witness :
    (refS1.mutateAt 0 (mkJob .done none none 0 0)).record "a" =
      some (mkJob .done none none 0 0) :=
  C2_get_job_aliases refS1 "a" 0 (by decide) (by decide) (mkJob .done none none 0 0)

/-! ## Claim C3: dispatcher behavior when the job is missing -/

/-- C3, counterexample: the claim says the work unit is invoked only if
the RUNNING-mark found the job. On an empty store the RUNNING-mark
returns None (job not found), yet `_run_crew_job` — which discards that
return value — still invokes the work unit. -/
theorem C3_counterexample :
    (emptyS.update_job "a" (some .running) none none 1).2 = none
    ∧ (run_crew_job emptyS "a" (.ok [("output", "ok")]) 1 2).2 = true := by
  decide

/-- C3 (amended): when the job id is missing from the store, the
Dispatcher does not abort: it ignores the RUNNING-mark's None result and
invokes the work unit anyway. What does hold is that no error escapes
and the store is left unchanged (every update for the missing id is a
no-op). -/
theorem C3_missing_job_runs_anyway (s : JobStore) (id : String)
    (exec : Except PyExc ResultVal) (now₁ now₂ : Int) (h : s.get_job id = none) :
    (run_crew_job s id exec now₁ now₂).1 = s
    ∧ (run_crew_job s id exec now₁ now₂).2 = true := by
  have h1 : (s.update_job id (some .running) none none now₁).1 = s :=
    congrArg Prod.fst (update_job_not_found s id (some .running) none none now₁ h)
  cases exec with
  | ok r =>
    have h2 : (s.update_job id (some .done) (some r) none now₂).1 = s :=
      congrArg Prod.fst (update_job_not_found s id (some .done) (some r) none now₂ h)
    simp only [run_crew_job, h1]
    exact ⟨h2, trivial⟩
  | error e =>
    have h2 : (s.update_job id (some .failed) none (some executionError) now₂).1 = s :=
      congrArg Prod.fst
        (update_job_not_found s id (some .failed) none (some executionError) now₂ h)
    simp only [run_crew_job, h1]
    exact ⟨h2, trivial⟩

/-- C3, witness: the missing-job dispatch on the empty store. -/
theorem C3_witness :
    (run_crew_job emptyS "a" (.ok [("output", "ok")]) 1 2).1 = emptyS
    ∧ (run_crew_job emptyS "a" (.ok [("output", "ok")]) 1 2).2 = true :=
  C3_missing_job_runs_anyway emptyS "a" (.ok [("output", "ok")]) 1 2 (by decide)

/-! ## Claim C4: the reaper loop and failing sweeps -/

/-- C4, counterexample: the claim says a failing sweep is logged and the
loop continues on the next interval. With a schedule of two intervals
whose first sweep raises, the loop performs only that one sweep and the
exception escapes (the loop body has no handler): it does not continue
to the second interval, which would give `(2, none)`. -/
theorem C4_counterexample :
    cleanup_loop [Except.error "boom", Except.ok 0] = (1, some "boom")
    ∧ cleanup_loop [Except.error "boom", Except.ok 0] ≠ (2, none) := by
  decide

/-- C4 (amended): the reaper loop performs every scheduled sweep and
never terminates on its own as long as sweeps return normally; but the
loop body has no exception handling, so the first failing sweep's
exception escapes and terminates the loop at once, skipping all later
intervals. -/
theorem C4_loop_dies_on_failure (outs : List (Except String Nat))
    (hok : ∀ o ∈ outs, ∃ n, o = .ok n) :
    cleanup_loop outs = (outs.length, none)
    ∧ ∀ (pre : List (Except String Nat)) (e : String) (post : List (Except String Nat)),
        (∀ o ∈ pre, ∃ n, o = .ok n) →
        cleanup_loop (pre ++ .error e :: post) = (pre.length + 1, some e) := by
  constructor
  · induction outs with
    | nil => rfl
    | cons o rest ih =>
      obtain ⟨n, rfl⟩ := hok o (List.mem_cons_self _ _)
      have hrest := ih fun o' ho' => hok o' (List.mem_cons_of_mem _ ho')
      simp [cleanup_loop, hrest]
  · intro pre e post hpre
    induction pre with
    | nil => rfl
    | cons o rest ih =>
      obtain ⟨n, rfl⟩ := hpre o (List.mem_cons_self _ _)
      have hrest := ih fun o' ho' => hpre o' (List.mem_cons_of_mem _ ho')
      simp [cleanup_loop, hrest]

/-- C4, witness: a two-interval all-successful schedule. -/
theorem C4_witness :
    cleanup_loop [Except.ok 2, Except.ok 0] = (2, none)
    ∧ ∀ (pre : List (Except String Nat)) (e : String) (post : List (Except String Nat)),
        (∀ o ∈ pre, ∃ n, o = .ok n) →
        cleanup_loop (pre ++ .error e :: post) = (pre.length + 1, some e) := by
  refine C4_loop_dies_on_failure [Except.ok 2, Except.ok 0] ?_
  intro o ho
  rcases List.mem_cons.1 ho with rfl | ho2
  · exact ⟨2, rfl⟩
  rcases List.mem_cons.1 ho2 with rfl | ho3
  · exact ⟨0, rfl⟩
  · simp at ho3

/-! ## Claim C5: failures produce one fixed sanitized error payload -/

/-- C5: for every failing work-unit execution, the dispatcher's entire
effect on the store is independent of the underlying exception (so the
externally visible error payload is identical for any two failures), and
the job the store then holds is FAILED with exactly the fixed sanitized
pair `code="EXECUTION_ERROR"`, `message="An error occurred during crew
execution"` — never the exception's own text. -/
theorem C5_sanitized_error (s : JobStore) (id : String) (j : Job)
    (hj : s.get_job id = some j) (e₁ e₂ : PyExc) (now₁ now₂ : Int) :
    run_crew_job s id (.error e₁) now₁ now₂ = run_crew_job s id (.error e₂) now₁ now₂
    ∧ ∃ j', (run_crew_job s id (.error e₁) now₁ now₂).1.get_job id = some j'
        ∧ j'.status = .failed
        ∧ j'.error = some executionError
        ∧ executionError =
            { code := "EXECUTION_ERROR",
              message := "An error occurred during crew execution" } := by
  refine ⟨rfl, ?_⟩
  have h₁ := (update_job_found s id (some .running) none none now₁ j hj).2
  have h₂ := (update_job_found (s.update_job id (some .running) none none now₁).1 id
      (some .failed) none (some executionError) now₂ _ h₁).2
  exact ⟨_, h₂, rfl, rfl, rfl⟩

/-- C5, witness: both updates applied to the one-QUEUED-job store. -/
theorem C5_witness :
    run_crew_job sQueued "a" (.error (.valueError "secret detail")) 1 2 =
      run_crew_job sQueued "a" (.error (.otherError "RuntimeError" "api key xyz")) 1 2
    ∧ ∃ j', (run_crew_job sQueued "a" (.error (.valueError "secret detail")) 1
          2).1.get_job "a" = some j'
        ∧ j'.status = .failed
        ∧ j'.error = some executionError
        ∧ executionError =
            { code := "EXECUTION_ERROR",
              message := "An error occurred during crew execution" } :=
  C5_sanitized_error sQueued "a" (mkJob .queued none none 0 0) (by decide)
    (.valueError "secret detail") (.otherError "RuntimeError" "api key xyz") 1 2

/-! ## Claim C6: the retry policy's attempt discipline -/

/-- C6: the retry policy invokes the work unit at most twice; a
non-transient first failure propagates unchanged after exactly one
invocation; a transient first failure followed by success yields overall
success with exactly two invocations; two transient failures yield
overall failure after two invocations. -/
theorem C6_retry_policy (att : Nat → Except PyExc String)
    (e : PyExc) (he : isTransient e = false)
    (t : PyExc) (ht : isTransient t = true) (r : String)
    (t₁ t₂ : PyExc) (h₁ : isTransient t₁ = true) (h₂ : isTransient t₂ = true) :
    (execute_crew att).2 ≤ 2
    ∧ execute_crew (fun _ => .error e) = (.error e, 1)
    ∧ execute_crew (fun n => if n = 0 then .error t else .ok r) = (.ok r, 2)
    ∧ ∃ e', execute_crew (fun n => if n = 0 then .error t₁ else .error t₂) =
        (.error e', 2) := by
  refine ⟨?_, ?_, ?_, ?_⟩
  · cases h0 : att 0 with
    | ok r0 => simp [execute_crew, h0]
    | error e0 =>
      cases ht0 : isTransient e0 with
      | false => simp [execute_crew, h0, ht0]
      | true =>
        cases h1 : att 1 with
        | ok r1 => simp [execute_crew, h0, ht0, h1]
        | error e1 =>
          cases ht1 : isTransient e1 with
          | false => simp [execute_crew, h0, ht0, h1, ht1]
          | true => simp [execute_crew, h0, ht0, h1, ht1]
  · simp [execute_crew, he]
  · simp [execute_crew, ht]
  · cases ht2 : isTransient t₂ with
    | false => exact absurd ht2 (by simp [h₂])
    | true => exact ⟨.retryError t₂, by simp [execute_crew, h₁, ht2]⟩

/-- C6, witness: the retry discipline at concrete attempt schedules. -/
theorem C6_witness :
    (execute_crew (fun _ => .ok "x")).2 ≤ 2
    ∧ execute_crew (fun _ => .error (.valueError "bad payload")) =
        (.error (.valueError "bad payload"), 1)
    ∧ execute_crew (fun n => if n = 0 then .error (.timeoutError "slow")
        else .ok "recovered") = (.ok "recovered", 2)
    ∧ ∃ e', execute_crew (fun n => if n = 0 then .error (.timeoutError "slow")
        else .error (.connectionError "down")) = (.error e', 2) :=
  C6_retry_policy (fun _ => .ok "x") (.valueError "bad payload") rfl
    (.timeoutError "slow") rfl "recovered"
    (.timeoutError "slow") (.connectionError "down") rfl rfl

/-! ## Claim C7: what propagates when the final attempt fails -/

/-- C7, counterexample: the claim says the original failure — not a
wrapper — is propagated when the final attempt fails. A work unit that
fails transiently on both attempts makes tenacity (with its default
`reraise=False`) raise `RetryError` wrapping the last attempt: the
propagated exception is the wrapper, not the original `TimeoutError`. -/
theorem C7_counterexample :
    (execute_crew (fun _ => .error (.timeoutError "boom"))).1 =
      .error (.retryError (.timeoutError "boom"))
    ∧ PyExc.retryError (.timeoutError "boom") ≠ .timeoutError "boom" :=
  ⟨rfl, by decide⟩

/-- C7 (amended): when the final attempt fails with a non-retryable
exception the original exception propagates unchanged (whether it was
the first attempt or the second, after a transient first failure); but
when retries are exhausted on a transient failure, what propagates is
tenacity's `RetryError` wrapping the last attempt — the failure is not
swallowed, yet it reaches the Dispatcher wrapped rather than as the
original exception. -/
theorem C7_final_failure_propagation (e : PyExc) (he : isTransient e = false)
    (t₁ t₂ : PyExc) (h₁ : isTransient t₁ = true) (h₂ : isTransient t₂ = true)
    (a₁ : Except PyExc String) :
    (execute_crew (fun n => if n = 0 then .error e else a₁)).1 = .error e
    ∧ (execute_crew (fun n => if n = 0 then .error t₁ else .error e)).1 = .error e
    ∧ (execute_crew (fun n => if n = 0 then .error t₁ else .error t₂)).1 =
        .error (.retryError t₂) := by
  refine ⟨?_, ?_, ?_⟩
  · simp [execute_crew, he]
  · simp [execute_crew, h₁, he]
  · simp [execute_crew, h₁, h₂]

/-- C7, witness: propagation at concrete exceptions. -/
theorem C7_witness :
    (execute_crew (fun n => if n = 0 then .error (.valueError "bad")
        else .ok "x")).1 = .error (.valueError "bad")
    ∧ (execute_crew (fun n => if n = 0 then .error (.timeoutError "slow")
        else .error (.valueError "bad"))).1 = .error (.valueError "bad")
    ∧ (execute_crew (fun n => if n = 0 then .error (.timeoutError "slow")
        else .error (.connectionError "down"))).1 =
        .error (.retryError (.connectionError "down")) :=
  C7_final_failure_propagation (.valueError "bad") rfl
    (.timeoutError "slow") (.connectionError "down") rfl rfl (.ok "x")

/-! ## Claim C8: terminal states set exactly one of result/error -/

/-- C8: in every store state reachable via `create` and the Dispatcher's
updates (with the reaper free to sweep at any point), a DONE job has a
result and no error, and a FAILED job has an error and no result. -/
theorem C8_terminal_exclusive (s : JobStore) (hs : Reach s) (id : String) (j : Job)
    (hj : s.get_job id = some j) :
    (j.status = .done → (∃ r, j.result = some r) ∧ j.error = none)
    ∧ (j.status = .failed → (∃ e, j.error = some e) ∧ j.result = none) := by
  have hIJ : InvJob j := reach_inv hs _ (findKey_mem hj)
  exact ⟨hIJ.2.2.1, fun h => ⟨(hIJ.2.2.2 h).2, (hIJ.2.2.2 h).1⟩⟩

/-- C8, witness: create, mark running, finish done — the resulting DONE
record. -/
theorem C8_witness :
    ((mkJob .done (some [("output", "ok")]) none 0 2).status = .done →
      (∃ r, (mkJob .done (some [("output", "ok")]) none 0 2).result = some r)
      ∧ (mkJob .done (some [("output", "ok")]) none 0 2).error = none)
    ∧ ((mkJob .done (some [("output", "ok")]) none 0 2).status = .failed →
      (∃ e, (mkJob .done (some [("output", "ok")]) none 0 2).error = some e)
      ∧ (mkJob .done (some [("output", "ok")]) none 0 2).result = none) :=
  C8_terminal_exclusive
    (((emptyS.create_job "a" "t" "marketing" 0).1.update_job "a" (some .running)
        none none 1).1.update_job "a" (some .done) (some [("output", "ok")])
        none 2).1
    (Reach.step
      (Reach.step
        (Reach.step (Reach.init 3600)
          (Step.create emptyS "a" "t" "marketing" 0 (by decide)))
        (Step.markRunning (emptyS.create_job "a" "t" "marketing" 0).1 "a" 1
          (Or.inr ⟨mkJob .queued none none 0 0, by decide, by decide⟩)))
      (Step.finishDone
        ((emptyS.create_job "a" "t" "marketing" 0).1.update_job "a" (some .running)
          none none 1).1 "a" [("output", "ok")] 2
        (Or.inr ⟨mkJob .running none none 0 1, by decide, by decide⟩)))
    "a" (mkJob .done (some [("output", "ok")]) none 0 2) (by decide)

/-! ## Claim C9: the sweep removes exactly the expired records -/

theorem findKey_eq_of_mem_nodup {α : Type} {l : List (String × α)}
    (hnd : (l.map Prod.fst).Nodup) {id : String} {v : α}
    (hmem : (id, v) ∈ l) : findKey l id = some v := by
  induction l with
  | nil => simp at hmem
  | cons p rest ih =>
    obtain ⟨k, w⟩ := p
    simp only [List.map_cons, List.nodup_cons] at hnd
    rcases List.mem_cons.1 hmem with heq | hmem'
    · cases heq
      rw [findKey_cons, if_pos rfl]
    · by_cases hk : k = id
      · subst hk
        exact absurd (List.mem_map_of_mem Prod.fst hmem') hnd.1
      · rw [findKey_cons, if_neg hk]
        exact ih hnd.2 hmem'

theorem filter_of_filter_not {α : Type} (l : List α) (P : α → Bool) :
    (l.filter fun a => ! P a).filter P = [] := by
  induction l with
  | nil => rfl
  | cons a rest ih =>
    by_cases hp : P a = true
    · simp [List.filter_cons, hp, ih]
    · simp [List.filter_cons, hp, ih]

theorem length_filter_add {α : Type} (l : List α) (P : α → Bool) :
    (l.filter fun a => ! P a).length + (l.filter P).length = l.length := by
  induction l with
  | nil => rfl
  | cons a rest ih =>
    by_cases hp : P a = true <;> simp [List.filter_cons, hp] <;> omega

/-- C9: a sweep keeps a record if and only if it was there and its
`created_at` is not older than `now - ttl` (regardless of its status:
the filter never looks at it); the number removed plus the number kept
is the old total; and a second sweep immediately after (same `now`, no
new jobs) removes 0. -/
theorem C9_sweep_exact (s : JobStore) (now : Int)
    (hnd : (s.jobs.map Prod.fst).Nodup) :
    (∀ id j, (s.cleanup_old_jobs now).1.get_job id = some j ↔
      (s.get_job id = some j ∧ ¬ (j.created_at < now - s.ttl_seconds)))
    ∧ (s.cleanup_old_jobs now).1.jobs.length + (s.cleanup_old_jobs now).2 =
        s.jobs.length
    ∧ ((s.cleanup_old_jobs now).1.cleanup_old_jobs now).2 = 0 := by
  refine ⟨?_, ?_, ?_⟩
  · intro id j
    constructor
    · intro hj'
      have hj'' : findKey (s.jobs.filter fun p =>
          ! decide (p.2.created_at < now - s.ttl_seconds)) id = some j := hj'
      have hmf := List.mem_filter.1 (findKey_mem hj'')
      refine ⟨findKey_eq_of_mem_nodup hnd hmf.1, ?_⟩
      simpa using hmf.2
    · rintro ⟨hsj, hkeep⟩
      have hcond : (! decide (j.created_at < now - s.ttl_seconds)) = true := by
        simpa using hkeep
      show findKey (s.jobs.filter fun p =>
          ! decide (p.2.created_at < now - s.ttl_seconds)) id = some j
      rw [findKey_filter_some _ hnd hsj, if_pos hcond]
  · exact length_filter_add s.jobs fun p =>
      decide (p.2.created_at < now - s.ttl_seconds)
  · show ((s.jobs.filter fun p => ! decide (p.2.created_at < now - s.ttl_seconds)).filter
        fun p => decide (p.2.created_at < now - s.ttl_seconds)).length = 0
    rw [filter_of_filter_not]
    rfl

/-- C9, witness: a sweep over a two-job store with one expired record. -/
theorem C9_witness :
    (∀ id j,
      (({ jobs := [("a", mkJob .running none none 0 1),
                   ("b", mkJob .done none none 5000 5001)],
          ttl_seconds := 3600 } : JobStore).cleanup_old_jobs 5000).1.get_job id =
          some j ↔
        (({ jobs := [("a", mkJob .running none none 0 1),
                     ("b", mkJob .done none none 5000 5001)],
            ttl_seconds := 3600 } : JobStore).get_job id = some j
          ∧ ¬ (j.created_at < 5000 - 3600)))
    ∧ (({ jobs := [("a", mkJob .running none none 0 1),
                   ("b", mkJob .done none none 5000 5001)],
          ttl_seconds := 3600 } : JobStore).cleanup_old_jobs 5000).1.jobs.length +
        (({ jobs := [("a", mkJob .running none none 0 1),
                     ("b", mkJob .done none none 5000 5001)],
            ttl_seconds := 3600 } : JobStore).cleanup_old_jobs 5000).2 = 2
    ∧ ((({ jobs := [("a", mkJob .running none none 0 1),
                    ("b", mkJob .done none none 5000 5001)],
           ttl_seconds := 3600 } : JobStore).cleanup_old_jobs
          5000).1.cleanup_old_jobs 5000).2 = 0 :=
  C9_sweep_exact
    { jobs := [("a", mkJob .running none none 0 1),
               ("b", mkJob .done none none 5000 5001)],
      ttl_seconds := 3600 } 5000 (by decide)

/-! ## Claim C10: update applies exactly the provided fields -/

/-- C10: for a known id, `update_job` returns the updated record, whose
status/result/error take the provided value when one was passed and are
otherwise untouched, whose immutable fields are unchanged, and whose
`updated_at` is bumped to the current time; every other id's record is
untouched; and for an unknown id, `update_job` returns not-found and
leaves the store unchanged. -/
theorem C10_update_applies_only_given (s : JobStore) (id : String) (j : Job)
    (st : Option JobStatus) (r : Option ResultVal) (e : Option ErrPayload) (now : Int)
    (hj : s.get_job id = some j) :
    (∃ j', (s.update_job id st r e now).2 = some j'
      ∧ (s.update_job id st r e now).1.get_job id = some j'
      ∧ j'.status = (match st with | some v => v | none => j.status)
      ∧ j'.result = (match r with | some v => some v | none => j.result)
      ∧ j'.error = (match e with | some v => some v | none => j.error)
      ∧ j'.job_id = j.job_id ∧ j'.trace_id = j.trace_id ∧ j'.crew = j.crew
      ∧ j'.created_at = j.created_at ∧ j'.updated_at = now
      ∧ ∀ id', id' ≠ id →
          (s.update_job id st r e now).1.get_job id' = s.get_job id')
    ∧ ∀ id₀, s.get_job id₀ = none → s.update_job id₀ st r e now = (s, none) := by
  constructor
  · obtain ⟨h1, h2⟩ := update_job_found s id st r e now j hj
    exact ⟨applyUpdate j st r e now, h1, h2, rfl, rfl, rfl, rfl, rfl, rfl, rfl, rfl,
      fun id' hne => update_job_frame s id' st r e now hne⟩
  · intro id₀ h₀
    exact update_job_not_found s id₀ st r e now h₀

/-- C10, witness: a status-and-result update on the one-QUEUED-job
store. -/
theorem C10_witness :
    (∃ j', (sQueued.update_job "a" (some .done) (some [("output", "ok")]) none 9).2 =
        some j'
      ∧ (sQueued.update_job "a" (some .done) (some [("output", "ok")])
          none 9).1.get_job "a" = some j'
      ∧ j'.status = .done
      ∧ j'.result = some [("output", "ok")]
      ∧ j'.error = none
      ∧ j'.job_id = "a" ∧ j'.trace_id = "t" ∧ j'.crew = "marketing"
      ∧ j'.created_at = 0 ∧ j'.updated_at = 9
      ∧ ∀ id', id' ≠ "a" →
          (sQueued.update_job "a" (some .done) (some [("output", "ok")])
            none 9).1.get_job id' = sQueued.get_job id')
    ∧ ∀ id₀, sQueued.get_job id₀ = none →
        sQueued.update_job id₀ (some .done) (some [("output", "ok")]) none 9 =
          (sQueued, none) :=
  C10_update_applies_only_given sQueued "a" (mkJob .queued none none 0 0) (some .done)
    (some [("output", "ok")]) none 9 (by decide)

end Agency
